import Mathlib

/-
Verification development for mirep.py (version 0.1.6), a Debian/Ubuntu
repository mirroring script.  The definitions below are a shallow embedding
of the parts of the source relevant to the frozen claims:

  * PackageHandler.parse_packages_data  (index-record parsing)
  * PackageHandler.extract_file / find_and_extract_packages
  * Downloader.download_file            (single-file fetch with skip policy)
  * RepositoryManage.mirror_repository  (task planning / package-file fetch)
  * RepositoryManage.remove_repository  (prune derivation and execution)

External effects (local filesystem listings, decompression libraries, the
HTTP transport) are modelled as explicit oracles passed to the embedded
functions; mutable object state (counters, file lists) is threaded as an
explicit state record.  Python exceptions are modelled with Except or with
an Option error component: an uncaught exception is an error value.
-/

namespace Mirep

/-! ## Python string primitives (structural, evaluable by the kernel) -/

/-- Characters removed by Python str.strip on both ends (ASCII whitespace). -/
def stripChars (l : List Char) : List Char :=
  ((l.dropWhile Char.isWhitespace).reverse.dropWhile Char.isWhitespace).reverse

/-- Model of Python str.strip. -/
def strip (s : String) : String := ⟨stripChars s.data⟩

/-- Splits a character list at every newline character. -/
def splitCharsOnNl : List Char → List (List Char)
  | [] => [[]]
  | c :: rest =>
    if c = '\n' then [] :: splitCharsOnNl rest
    else
      match splitCharsOnNl rest with
      | [] => [[c]]
      | h :: t => (c :: h) :: t

/-- Model of Python str.splitlines for newline-separated text: a trailing
newline does not produce a trailing empty line. -/
def splitlinesPy (s : String) : List String :=
  let ps := splitCharsOnNl s.data
  let ps := if ps.getLast? = some [] then ps.dropLast else ps
  ps.map (fun l => ⟨l⟩)

/-- Scans for the first occurrence of the two-character separator colon-space,
returning the text before and after it.  Model of the combined Python test
(colon-space in line) and line.split(colon-space, 1). -/
def splitOnceAux : List Char → List Char → Option (List Char × List Char)
  | _acc, [] => none
  | acc, ':' :: ' ' :: rest => some (acc.reverse, rest)
  | acc, c :: rest => splitOnceAux (c :: acc) rest

/-- Splits a line once at the first colon-space separator, if present. -/
def splitOnce (s : String) : Option (String × String) :=
  match splitOnceAux [] s.data with
  | none => none
  | some (k, v) => some (⟨k⟩, ⟨v⟩)

/-- Model of Python str.endswith. -/
def endsWithStr (s suf : String) : Bool :=
  suf.data.isSuffixOf s.data

/-- Model of Python str.lower (ASCII case folding). -/
def lowerStr (s : String) : String := ⟨s.data.map Char.toLower⟩

/-- Model of a Python f-string interpolation of an optional value: None is
rendered as the four-character text None. -/
def pyStr : Option String → String
  | some s => s
  | none => "None"

/-! ## PackageHandler.parse_packages_data -/

/-- A package record: an insertion-ordered key/value mapping, the shallow
embedding of a Python dict of strings built by the parser. -/
abbrev Record := List (String × String)

/-- The keys of a record in insertion order. -/
def recKeys (r : Record) : List String := r.map Prod.fst

/-- Model of Python dict assignment d[k] = v: overwrites the value in place
when the key is present (position preserved), otherwise appends. -/
def dictInsert : Record → String → String → Record
  | [], k, v => [(k, v)]
  | (k', v') :: rest, k, v =>
    if k' = k then (k', v) :: rest else (k', v') :: dictInsert rest k v

/-- Model of Python dict lookup d[k] (first matching entry). -/
def dictGet : Record → String → Option String
  | [], _ => none
  | (k', v') :: rest, k => if k' = k then some v' else dictGet rest k

/-- One iteration of the line loop of PackageHandler.parse_packages_data:
strip the line; on a blank line flush a non-empty current record; on a
key-value line insert (overwriting in place); otherwise treat the line as a
continuation of the most recently inserted key, discarding it if the current
record is empty. -/
def processLine (st : List Record × Record) (rawLine : String) : List Record × Record :=
  let packages := st.1
  let current := st.2
  let line := strip rawLine
  if line = "" then
    if current = [] then (packages, current) else (packages ++ [current], ([] : Record))
  else
    match splitOnce line with
    | some kv => (packages, dictInsert current kv.1 kv.2)
    | none =>
      match current.getLast? with
      | some lastPair =>
          (packages, dictInsert current lastPair.1
            ((dictGet current lastPair.1).getD "" ++ " " ++ line))
      | none => (packages, current)

/-- The line loop of PackageHandler.parse_packages_data together with the
final flush of a non-empty current record, started from an arbitrary
already-accumulated record list. -/
def parse_lines_from (acc : List Record) (ls : List String) : List Record :=
  let res := ls.foldl processLine (acc, [])
  if res.2 = [] then res.1 else res.1 ++ [res.2]

/-- The line loop of PackageHandler.parse_packages_data together with the
final flush of a non-empty current record, acting on an explicit line list. -/
def parse_lines (ls : List String) : List Record :=
  parse_lines_from [] ls

/-- Shallow embedding of PackageHandler.parse_packages_data: fold the line
loop over splitlines of the input and flush a non-empty final record. -/
def parse_packages_data (data : String) : List Record :=
  parse_lines (splitlinesPy data)

/-- The record transformation performed by one non-blank line of the parser
loop (the packages accumulator is untouched by such lines). -/
def lineRecStep (cur : Record) (l : String) : Record :=
  (processLine ([], cur) l).2

/-- Concatenates blocks of lines with one blank line between consecutive
blocks (used only to state the blank-line-delimited-block property of the
parser; the block text itself comes from the source format). -/
def joinBlocks : List (List String) → List String
  | [] => []
  | [b] => b
  | b :: rest => b ++ [""] ++ joinBlocks rest

/-- The record the parser accumulates from one block of lines, starting from
an empty current record. -/
def blockRecord (b : List String) : Record :=
  (b.foldl processLine ([], [])).2

/-! ## PackageHandler.extract_file and find_and_extract_packages -/

/-- Oracles for the local filesystem and the decompression libraries.
listing models FileManager.list_files_in_folder (the files present in a
folder at the moment it is read); plain models reading a file as text;
lzma and gzip model the respective library decoders applied to the file at a
path, returning the decoded text or failing (a raised decode error) when the
byte stream at that path is not valid for that compression. -/
structure World where
  listing : String → List String
  plain : String → String
  lzma : String → Except Unit String
  gzip : String → Except Unit String

/-- Shallow embedding of PackageHandler.extract_file: dispatch on the
filename suffix; a decode failure of the selected library propagates as a
raised error. -/
def extract_file (w : World) (file_path : String) : Except Unit String :=
  if endsWithStr file_path ".xz" then w.lzma file_path
  else if endsWithStr file_path ".gz" then w.gzip file_path
  else .ok (w.plain file_path)

/-- The filename test of PackageHandler.find_and_extract_packages. -/
def isPackagesFile (fp : String) : Bool :=
  endsWithStr fp "Packages" || endsWithStr fp "Packages.xz" || endsWithStr fp "Packages.gz"

/-- Shallow embedding of PackageHandler.find_and_extract_packages: return
the parse of the first Packages-family file in the list; a decode error
propagates; if no file matches, the Python function falls off the loop and
returns None, modelled as ok none. -/
def find_and_extract_packages (w : World) : List String → Except Unit (Option (List Record))
  | [] => .ok none
  | fp :: rest =>
    if isPackagesFile fp then
      match extract_file w fp with
      | .error e => .error e
      | .ok data => .ok (some (parse_packages_data data))
    else find_and_extract_packages w rest

/-! ## Downloader.download_file -/

/-- Outcome of one HTTP GET as seen by download_file: a 2xx body, an HTTP
status error (raised by raise_for_status and caught by the except clause),
or a transport-level error raised by the request itself, which the except
clause does not catch. -/
inductive FetchOutcome : Type
  | success (body : String)
  | httpError (status : Nat)
  | transportError
deriving DecidableEq, Repr

/-- An exception escaping download_file uncaught. -/
inductive DLError : Type
  | transport
deriving DecidableEq, Repr

/-- The mutable state touched by Downloader.download_file: local files
(path to contents), created directories, the downloaded-files list and the
two counters, plus a log of URLs actually requested over the network. -/
structure DLState where
  files : List (String × String)
  dirs : List String
  downloaded_files : List String
  downloaded_count : Nat
  skipped_count : Nat
  netLog : List String
deriving DecidableEq, Repr

/-- Model of os.path.dirname (posix): the text before the last slash, with
trailing slashes stripped unless the head is all slashes. -/
def dirname (p : String) : String :=
  let headR := p.data.reverse.dropWhile (fun c => c ≠ '/')
  let head := headR.reverse
  if head ≠ [] ∧ head.any (fun c => c ≠ '/') then ⟨(headR.dropWhile (fun c => c = '/')).reverse⟩
  else ⟨head⟩

/-- The directory-creation step of Downloader.download_file: create the
parent folder when it is missing (idempotent). -/
def ensureDir (st : DLState) (folder : String) : DLState :=
  if st.dirs.contains folder then st else { st with dirs := folder :: st.dirs }

/-- The body of Downloader.download_file after the directory-creation step:
if the destination exists and overwrite is false, count a skip and return;
otherwise perform the network request (appended to netLog), and on success
write the file, record it and count it; an HTTP status error is only logged
(no further state change); any other request error is not caught and
propagates, returning some transport alongside the state mutated so far. -/
def downloadCore (st : DLState) (path full_path : String) (overwrite : Bool)
    (net : String → FetchOutcome) : DLState × Option DLError :=
  if (st.files.map Prod.fst).contains full_path && !overwrite then
    ({ st with skipped_count := st.skipped_count + 1 }, none)
  else
    match net path with
    | .success body =>
        ({ st with
            files := dictInsert st.files full_path body,
            downloaded_files := st.downloaded_files ++ [full_path],
            downloaded_count := st.downloaded_count + 1,
            netLog := st.netLog ++ [path] }, none)
    | .httpError _ => ({ st with netLog := st.netLog ++ [path] }, none)
    | .transportError => ({ st with netLog := st.netLog ++ [path] }, some .transport)

/-- Shallow embedding of Downloader.download_file.  In source order: create
the missing parent directory (ensureDir), then run the body above. -/
def download_file (st : DLState) (path full_path : String) (overwrite : Bool)
    (net : String → FetchOutcome) : DLState × Option DLError :=
  downloadCore (ensureDir st (dirname full_path)) path full_path overwrite net

/-- One planned fetch: source URL, destination path, overwrite flag. -/
abbrev FetchSpec := String × String × Bool

/-- Model of submitting a list of fetch tasks and collecting every future:
each task runs regardless of earlier failures (the pool shutdown waits for
all of them); the errors raised inside tasks are collected in order and
surface only afterwards, when results are gathered. -/
def executeTasks (net : String → FetchOutcome) (st : DLState) :
    List FetchSpec → DLState × List DLError
  | [] => (st, [])
  | t :: ts =>
    let r := download_file st t.1 t.2.1 t.2.2 net
    let rest := executeTasks net r.1 ts
    (rest.1, match r.2 with | none => rest.2 | some e => e :: rest.2)

/-! ## RepositoryManage.mirror_repository (planning) -/

/-- The run configuration fields consumed by the engine. -/
structure Args where
  proto : String
  url : String
  inpath : String
  rootpath : String
  distributions : List String
  components : List String
  architectures : List String

/-- The kinds of work items mirror_repository produces. -/
inductive TaskKind : Type
  | releaseFetch
  | contentsFetch
  | dirSync
  | packageFetch
deriving DecidableEq, Repr

/-- One work item produced by the mirror planning loop. -/
structure SyncTask where
  kind : TaskKind
  source : String
  dest : String
  overwrite : Bool
deriving DecidableEq, Repr

/-- An exception aborting the mirror or prune run: a decode error raised by
extract_file, or the TypeError raised by calling len on the None returned by
find_and_extract_packages when no Packages-family file is present. -/
inductive RunError : Type
  | decodeError
  | typeError
deriving DecidableEq, Repr

/-- The first path segment, model of path.split(slash)[0] in
download_directory. -/
def headSegment (s : String) : String := ⟨s.data.takeWhile (fun c => c ≠ '/')⟩

/-- The three release-artifact fetches submitted per distribution
(overwrite true). -/
def releaseTasks (a : Args) (d : String) : List SyncTask :=
  ["InRelease", "Release", "Release.gpg"].map (fun cert =>
    { kind := .releaseFetch,
      source := a.proto ++ "://" ++ a.url ++ "/" ++ a.inpath ++ "/dists/" ++ d ++ "/" ++ cert,
      dest := a.rootpath ++ "/" ++ a.url ++ "/" ++ a.inpath ++ "/dists/" ++ d ++ "/" ++ cert,
      overwrite := true })

/-- A directory-sync work item (Downloader.download_directory delegated to
wget): destination root as wget computes it from the first path segment. -/
def dirSyncTask (a : Args) (p : String) : SyncTask :=
  { kind := .dirSync,
    source := a.proto ++ "://" ++ p,
    dest := a.rootpath ++ "/" ++ headSegment p,
    overwrite := true }

/-- The package-file fetch built for one parsed record (mirror_repository
package loop): the Filename field is interpolated Python-style, rendering a
missing field as the text None; overwrite is false (skip if exists). -/
def pkgTask (a : Args) (p : Record) : SyncTask :=
  { kind := .packageFetch,
    source := a.proto ++ "://" ++ a.url ++ "/" ++ a.inpath ++ "/" ++ pyStr (dictGet p "Filename"),
    dest := a.rootpath ++ "/" ++ a.url ++ "/" ++ a.inpath ++ "/" ++ pyStr (dictGet p "Filename"),
    overwrite := false }

/-- The binary-architecture folder the planner lists for one triple. -/
def mkSave (a : Args) (d c arch : String) : String :=
  a.rootpath ++ "/" ++ a.url ++ "/" ++ a.inpath ++ "/dists/" ++ d ++ "/" ++ c ++
    "/binary-" ++ arch ++ "/"

/-- Per-architecture planning step of mirror_repository: the Contents fetch,
the two directory syncs, then list the binary folder, find and extract the
package index and emit one package fetch per record.  A decode error raised
while extracting propagates; when no index file is found the subsequent len
call on None raises a TypeError; both abort the run. -/
def archTasks (w : World) (a : Args) (d c arch : String) : Except RunError (List SyncTask) :=
  let common := a.url ++ "/" ++ a.inpath ++ "/dists/" ++ d ++ "/" ++ c ++ "/Contents-" ++ arch ++ ".gz"
  let contents : SyncTask :=
    { kind := .contentsFetch, source := a.proto ++ "://" ++ common,
      dest := a.rootpath ++ "/" ++ common, overwrite := true }
  let sync1 := dirSyncTask a (a.url ++ "/" ++ a.inpath ++ "/dists/" ++ d ++ "/" ++ c ++ "/binary-" ++ arch ++ "/")
  let sync2 := dirSyncTask a (a.url ++ "/" ++ a.inpath ++ "/dists/" ++ d ++ "/" ++ c ++ "/debian-installer/binary-" ++ arch ++ "/")
  match find_and_extract_packages w (w.listing (mkSave a d c arch)) with
  | .error _ => .error .decodeError
  | .ok none => .error .typeError
  | .ok (some pkgs) => .ok ([contents, sync1, sync2] ++ pkgs.map (pkgTask a))

/-- The architecture loop of mirror_repository for one (distribution,
component) pair; an exception from any architecture aborts the run. -/
def archLoop (w : World) (a : Args) (d c : String) : List String → Except RunError (List SyncTask)
  | [] => .ok []
  | arch :: rest =>
    match archTasks w a d c arch with
    | .error e => .error e
    | .ok ts =>
      match archLoop w a d c rest with
      | .error e => .error e
      | .ok ts2 => .ok (ts ++ ts2)

/-- Per-component planning: the i18n and source directory syncs, then the
architecture loop. -/
def compTasks (w : World) (a : Args) (d c : String) : Except RunError (List SyncTask) :=
  let s1 := dirSyncTask a (a.url ++ "/" ++ a.inpath ++ "/dists/" ++ d ++ "/" ++ c ++ "/i18n/")
  let s2 := dirSyncTask a (a.url ++ "/" ++ a.inpath ++ "/dists/" ++ d ++ "/" ++ c ++ "/source/")
  match archLoop w a d c a.architectures with
  | .error e => .error e
  | .ok ts => .ok ([s1, s2] ++ ts)

/-- The component loop of mirror_repository for one distribution. -/
def compLoop (w : World) (a : Args) (d : String) : List String → Except RunError (List SyncTask)
  | [] => .ok []
  | c :: rest =>
    match compTasks w a d c with
    | .error e => .error e
    | .ok ts =>
      match compLoop w a d rest with
      | .error e => .error e
      | .ok ts2 => .ok (ts ++ ts2)

/-- The distribution loop of mirror_repository. -/
def distLoop (w : World) (a : Args) : List String → Except RunError (List SyncTask)
  | [] => .ok []
  | d :: rest =>
    match compLoop w a d a.components with
    | .error e => .error e
    | .ok ts =>
      match distLoop w a rest with
      | .error e => .error e
      | .ok ts2 => .ok (releaseTasks a d ++ ts ++ ts2)

/-- Shallow embedding of the planning traversal of mirror_repository: the
ordered list of submitted work items, or the exception that aborts the run. -/
def mirrorPlan (w : World) (a : Args) : Except RunError (List SyncTask) :=
  distLoop w a a.distributions

/-! ## RepositoryManage.remove_repository -/

/-- Per-triple derivation step of remove_repository: list the binary folder,
find and extract the package index, and derive one local path per record,
interpolating the Filename field Python-style.  The same two exceptions as
in the mirror loop abort the run. -/
def pruneTriple (w : World) (a : Args) (d c arch : String) : Except RunError (List String) :=
  match find_and_extract_packages w (w.listing (mkSave a d c arch)) with
  | .error _ => .error .decodeError
  | .ok none => .error .typeError
  | .ok (some pkgs) =>
      .ok (pkgs.map (fun p =>
        a.rootpath ++ "/" ++ a.url ++ "/" ++ a.inpath ++ "/" ++ pyStr (dictGet p "Filename")))

/-- The architecture loop of remove_repository. -/
def pruneArchLoop (w : World) (a : Args) (d c : String) : List String → Except RunError (List String)
  | [] => .ok []
  | arch :: rest =>
    match pruneTriple w a d c arch with
    | .error e => .error e
    | .ok ps =>
      match pruneArchLoop w a d c rest with
      | .error e => .error e
      | .ok ps2 => .ok (ps ++ ps2)

/-- The component loop of remove_repository. -/
def pruneCompLoop (w : World) (a : Args) (d : String) : List String → Except RunError (List String)
  | [] => .ok []
  | c :: rest =>
    match pruneArchLoop w a d c a.architectures with
    | .error e => .error e
    | .ok ps =>
      match pruneCompLoop w a d rest with
      | .error e => .error e
      | .ok ps2 => .ok (ps ++ ps2)

/-- The distribution loop of remove_repository. -/
def pruneDistLoop (w : World) (a : Args) : List String → Except RunError (List String)
  | [] => .ok []
  | d :: rest =>
    match pruneCompLoop w a d a.components with
    | .error e => .error e
    | .ok ps =>
      match pruneDistLoop w a rest with
      | .error e => .error e
      | .ok ps2 => .ok (ps ++ ps2)

/-- Shallow embedding of the derivation phase of remove_repository: the
ordered list of local package paths to erase.  The derivation reads only the
local filesystem oracles of the World; no network or directory-sync operation
appears in the source lines it embeds. -/
def prunePlan (w : World) (a : Args) : Except RunError (List String) :=
  pruneDistLoop w a a.distributions

/-- Shallow embedding of the execution phase of remove_repository, from the
captured user input onward.  Input normalization follows the source: strip,
lowercase, default to the letter n when the input is neither y nor n.  On y,
each listed file is removed (missing-file and permission errors are swallowed
per file) and the subtree of the last distribution folder is removed; on
anything else nothing is touched.  State is the pair (files, dirs) of the
local filesystem. -/
def remove_execute (userInput : String) (file_list : List String) (a : Args)
    (files dirs : List String) : List String × List String :=
  let ui := lowerStr (strip userInput)
  let ui := if ui ≠ "y" ∧ ui ≠ "n" then "n" else ui
  if ui = "y" then
    let files := files.filter (fun f => !(file_list.contains f))
    let distDir := a.rootpath ++ "/" ++ a.url ++ "/" ++ a.inpath ++ "/dists/" ++
      (a.distributions.getLastD "")
    let files := files.filter (fun f => !((distDir ++ "/").data.isPrefixOf f.data))
    let dirs := dirs.filter (fun dd => !(dd = distDir || (distDir ++ "/").data.isPrefixOf dd.data))
    (files, dirs)
  else (files, dirs)

/-- The destinations of the PackageFileFetch work items of a plan, in plan
order (used to compare the mirror plan with the prune derivation). -/
def packageFetchDests (ts : List SyncTask) : List String :=
  (ts.filter (fun t => t.kind == TaskKind.packageFetch)).map (fun t => t.dest)

/-! ## Concrete fixtures for witnesses, counterexamples and evaluations -/

/-- A run configuration with one distribution, component and architecture. -/
def a0 : Args :=
  { proto := "http", url := "ftp.debian.org", inpath := "debian", rootpath := "/srv/apt",
    distributions := ["bookworm"], components := ["main"], architectures := ["amd64"] }

/-- The configuration a0 with a second architecture after the first. -/
def a1 : Args := { a0 with architectures := ["amd64", "arm64"] }

/-- A local filesystem whose binary folder holds no Packages-family file. -/
def w0 : World :=
  { listing := fun _ => ["x/Release"], plain := fun _ => "",
    lzma := fun _ => .error (), gzip := fun _ => .error () }

/-- A local filesystem whose binary folder holds a Packages.xz file whose
byte stream the LZMA decoder rejects. -/
def w1 : World :=
  { listing := fun _ => ["y/Packages.xz"], plain := fun _ => "",
    lzma := fun _ => .error (), gzip := fun _ => .error () }

/-- A local filesystem whose binary folder holds a plain Packages file with
one record that has no Filename field. -/
def w2 : World :=
  { listing := fun _ => ["z/Packages"], plain := fun _ => "Package: foo\n",
    lzma := fun _ => .error (), gzip := fun _ => .error () }

/-- A local filesystem whose binary folder holds a plain Packages file with
one record carrying a Filename field. -/
def w3 : World :=
  { listing := fun _ => ["z/Packages"],
    plain := fun _ => "Package: foo\nFilename: pool/main/f/foo.deb\n",
    lzma := fun _ => .error (), gzip := fun _ => .error () }

/-- An empty downloader state. -/
def st0 : DLState :=
  { files := [], dirs := [], downloaded_files := [], downloaded_count := 0,
    skipped_count := 0, netLog := [] }

/-- A downloader state in which the destination file f already exists. -/
def st1 : DLState :=
  { files := [("/srv/apt/f", "old")], dirs := [], downloaded_files := [],
    downloaded_count := 0, skipped_count := 0, netLog := [] }

/-! ## Helper lemmas about the record operations -/

@[simp]
theorem recKeys_nil : recKeys [] = [] := rfl

@[simp]
theorem recKeys_cons (p : String × String) (r : Record) :
    recKeys (p :: r) = p.1 :: recKeys r := rfl

theorem dictInsert_ne_nil (r : Record) (k v : String) : dictInsert r k v ≠ [] := by
  cases r with
  | nil => simp [dictInsert]
  | cons p rest =>
    obtain ⟨k', v'⟩ := p
    by_cases hk : k' = k <;> simp [dictInsert, hk]

theorem recKeys_dictInsert_of_mem (k v : String) :
    ∀ r : Record, k ∈ recKeys r → recKeys (dictInsert r k v) = recKeys r := by
  intro r
  induction r with
  | nil => intro h; simp at h
  | cons p rest ih =>
    intro h
    obtain ⟨k', v'⟩ := p
    by_cases hk : k' = k
    · simp [dictInsert, hk]
    · have hmem : k ∈ recKeys rest := by
        rcases (by simpa using h : k = k' ∨ k ∈ recKeys rest) with h1 | h1
        · exact absurd h1.symm hk
        · exact h1
      simp [dictInsert, hk, ih hmem]

theorem dictGet_dictInsert_self (k v : String) :
    ∀ r : Record, dictGet (dictInsert r k v) k = some v := by
  intro r
  induction r with
  | nil => simp [dictInsert, dictGet]
  | cons p rest ih =>
    obtain ⟨k', v'⟩ := p
    by_cases hk : k' = k <;> simp [dictInsert, hk, dictGet, ih]

theorem dictInsert_append_last (lk lv x : String) :
    ∀ d : Record, lk ∉ recKeys d → dictInsert (d ++ [(lk, lv)]) lk x = d ++ [(lk, x)] := by
  intro d
  induction d with
  | nil => intro _; simp [dictInsert]
  | cons p rest ih =>
    intro h
    obtain ⟨k', v'⟩ := p
    simp at h
    have hk : ¬ k' = lk := fun e => h.1 e.symm
    simp [dictInsert, hk, ih h.2]

theorem dictGet_append_last (lk lv : String) :
    ∀ d : Record, lk ∉ recKeys d → dictGet (d ++ [(lk, lv)]) lk = some lv := by
  intro d
  induction d with
  | nil => intro _; simp [dictGet]
  | cons p rest ih =>
    intro h
    obtain ⟨k', v'⟩ := p
    simp at h
    have hk : ¬ k' = lk := fun e => h.1 e.symm
    simp [dictGet, hk, ih h.2]

/-! ## Helper lemmas about ensureDir -/

@[simp]
theorem ensureDir_files (st : DLState) (f : String) : (ensureDir st f).files = st.files := by
  unfold ensureDir; split <;> rfl

@[simp]
theorem ensureDir_downloaded_files (st : DLState) (f : String) :
    (ensureDir st f).downloaded_files = st.downloaded_files := by
  unfold ensureDir; split <;> rfl

@[simp]
theorem ensureDir_downloaded_count (st : DLState) (f : String) :
    (ensureDir st f).downloaded_count = st.downloaded_count := by
  unfold ensureDir; split <;> rfl

@[simp]
theorem ensureDir_skipped_count (st : DLState) (f : String) :
    (ensureDir st f).skipped_count = st.skipped_count := by
  unfold ensureDir; split <;> rfl

@[simp]
theorem ensureDir_netLog (st : DLState) (f : String) : (ensureDir st f).netLog = st.netLog := by
  unfold ensureDir; split <;> rfl

@[simp]
theorem ensureDir_dirs_contains (st : DLState) (f : String) :
    ((ensureDir st f).dirs).contains f = true := by
  unfold ensureDir
  split
  · assumption
  · simp [List.contains_cons]

/-! ## Helper lemmas about downloadCore -/

theorem downloadCore_dirs (st : DLState) (path fp : String) (ow : Bool)
    (net : String → FetchOutcome) :
    (downloadCore st path fp ow net).1.dirs = st.dirs := by
  unfold downloadCore
  by_cases hc : ((st.files.map Prod.fst).contains fp && !ow) = true
  · rw [if_pos hc]
  · rw [if_neg hc]
    cases hnp : net path <;> simp [hnp]

/-! ## Claim theorems -/

/-- C3: for a fetch task whose destination already exists and whose policy is
skip-if-exists (overwrite false), download_file raises nothing, increments the
skipped count by exactly one, performs no network request, and leaves the
downloaded count, the downloaded-files list and the stored files (hence the
destination contents) unchanged. -/
theorem claim3_skip_existing (st : DLState) (path fp : String) (net : String → FetchOutcome)
    (h : (st.files.map Prod.fst).contains fp = true) :
    (download_file st path fp false net).2 = none ∧
    (download_file st path fp false net).1.skipped_count = st.skipped_count + 1 ∧
    (download_file st path fp false net).1.downloaded_count = st.downloaded_count ∧
    (download_file st path fp false net).1.downloaded_files = st.downloaded_files ∧
    (download_file st path fp false net).1.netLog = st.netLog ∧
    (download_file st path fp false net).1.files = st.files := by
  unfold download_file downloadCore
  simp only [ensureDir_files, ensureDir_downloaded_files, ensureDir_downloaded_count,
    ensureDir_skipped_count, ensureDir_netLog, Bool.not_false, Bool.and_true, h]
  simp

/-- Witness for C3 at a concrete state whose destination file exists. -/
theorem claim3_witness :
    (download_file st1 "http://h/f" "/srv/apt/f" false (fun _ => FetchOutcome.transportError)).2 = none ∧
    (download_file st1 "http://h/f" "/srv/apt/f" false (fun _ => FetchOutcome.transportError)).1.skipped_count = st1.skipped_count + 1 ∧
    (download_file st1 "http://h/f" "/srv/apt/f" false (fun _ => FetchOutcome.transportError)).1.downloaded_count = st1.downloaded_count ∧
    (download_file st1 "http://h/f" "/srv/apt/f" false (fun _ => FetchOutcome.transportError)).1.downloaded_files = st1.downloaded_files ∧
    (download_file st1 "http://h/f" "/srv/apt/f" false (fun _ => FetchOutcome.transportError)).1.netLog = st1.netLog ∧
    (download_file st1 "http://h/f" "/srv/apt/f" false (fun _ => FetchOutcome.transportError)).1.files = st1.files :=
  claim3_skip_existing st1 "http://h/f" "/srv/apt/f" (fun _ => FetchOutcome.transportError) (by decide)

/-- C10: download_file creates the missing parent directory before the
skip-if-exists check and before any network interaction, so the parent
directory of the destination is present in the resulting state in every
outcome: skipped, downloaded, HTTP error and transport error alike. -/
theorem claim10_parent_dir (st : DLState) (path fp : String) (ow : Bool)
    (net : String → FetchOutcome) :
    ((download_file st path fp ow net).1.dirs).contains (dirname fp) = true := by
  unfold download_file
  rw [downloadCore_dirs]
  exact ensureDir_dirs_contains st (dirname fp)

/-- C9: when the prune confirmation input is not affirmative (its stripped,
lowercased form is not the letter y), the execution phase of
remove_repository performs zero filesystem mutations: the file set and the
directory set are returned unchanged. -/
theorem claim9_no_mutation (input : String) (file_list : List String) (a : Args)
    (files dirs : List String) (h : lowerStr (strip input) ≠ "y") :
    remove_execute input file_list a files dirs = (files, dirs) := by
  unfold remove_execute
  by_cases h2 : lowerStr (strip input) ≠ "y" ∧ lowerStr (strip input) ≠ "n"
  · simp [h2]
  · have hn : lowerStr (strip input) = "n" := by
      rcases not_and_or.mp h2 with h3 | h3
      · exact absurd h (by simpa using h3)
      · simpa using h3
    simp [h2, hn]

/-- Witness for C9 at a concrete non-affirmative input. -/
theorem claim9_witness :
    remove_execute "no" ["/srv/apt/ftp.debian.org/debian/pool/f.deb"] a0
      ["/srv/apt/ftp.debian.org/debian/pool/f.deb"] ["/srv/apt"] =
      (["/srv/apt/ftp.debian.org/debian/pool/f.deb"], ["/srv/apt"]) :=
  claim9_no_mutation "no" ["/srv/apt/ftp.debian.org/debian/pool/f.deb"] a0
    ["/srv/apt/ftp.debian.org/debian/pool/f.deb"] ["/srv/apt"] (by decide)

/-- C1 (code evaluation): on a triple whose binary folder holds no
Packages-family file, find_and_extract_packages falls off its loop and
returns the Python None, and the mirror run then aborts with a TypeError at
the len call instead of contributing zero tasks and continuing. -/
theorem claim1_eval :
    find_and_extract_packages w0 ["x/Release"] = .ok none ∧
    mirrorPlan w0 a0 = .error RunError.typeError := by
  constructor
  · rfl
  · rfl

/-- C4 (counterexample): a transport-level fetch error is not caught by the
except clause of download_file, so it escapes the task instead of being
logged and absorbed; the run that collects task results then re-raises it.
This refutes the claim that any fetch error is non-fatal to the run. -/
theorem claim4_counterexample :
    (download_file st0 "http://h/f" "/srv/apt/f" true (fun _ => FetchOutcome.transportError)).2 =
      some DLError.transport := by
  rfl

/-- C7 (counterexample): with two architectures, an invalid Packages.xz byte
stream in the first architecture folder makes planning abort with the decode
error; no work items at all are produced, in particular the second
architecture is never reached, refuting the claim that only the failing
architecture is skipped while the run continues. -/
theorem claim7_counterexample :
    mirrorPlan w1 a1 = .error RunError.decodeError := by
  rfl

/-- C7 (amended): decoding a file whose byte stream is invalid for the
compression its suffix declares fails with a decode error inside
extract_file; nothing catches it, so find_and_extract_packages propagates it
and the per-architecture planning step aborts with the decode error instead
of skipping just that architecture. -/
theorem claim7_amended (w : World) (fp : String) (rest : List String) (a : Args)
    (d c arch : String) (hxz : endsWithStr fp ".xz" = true) (hpk : isPackagesFile fp = true)
    (hbad : w.lzma fp = .error ()) (hlist : w.listing (mkSave a d c arch) = fp :: rest) :
    extract_file w fp = .error () ∧
    find_and_extract_packages w (fp :: rest) = .error () ∧
    archTasks w a d c arch = .error RunError.decodeError := by
  have h1 : extract_file w fp = .error () := by
    unfold extract_file
    rw [if_pos hxz]
    exact hbad
  have h2 : find_and_extract_packages w (fp :: rest) = .error () := by
    unfold find_and_extract_packages
    rw [if_pos hpk, h1]
  have h3 : archTasks w a d c arch = .error RunError.decodeError := by
    unfold archTasks
    rw [hlist, h2]
  exact ⟨h1, h2, h3⟩

/-- Witness for the amended C7 at the concrete bad-archive world. -/
theorem claim7_witness :
    archTasks w1 a0 "bookworm" "main" "amd64" = .error RunError.decodeError :=
  (claim7_amended w1 "y/Packages.xz" [] a0 "bookworm" "main" "amd64"
    (by decide) (by decide) rfl rfl).2.2

/-! ## C4: error handling of download_file and result collection -/

theorem executeTasks_append (net : String → FetchOutcome) :
    ∀ (ts1 : List FetchSpec) (st : DLState) (ts2 : List FetchSpec),
      executeTasks net st (ts1 ++ ts2) =
        ((executeTasks net (executeTasks net st ts1).1 ts2).1,
         (executeTasks net st ts1).2 ++ (executeTasks net (executeTasks net st ts1).1 ts2).2) := by
  intro ts1
  induction ts1 with
  | nil => intro st ts2; simp [executeTasks]
  | cons t rest ih =>
    intro st ts2
    simp only [List.cons_append, executeTasks, List.append_eq]
    rw [ih]
    cases (download_file st t.1 t.2.1 t.2.2 net).2 <;> simp

/-- C4 (amended): when the skip branch is not taken, an HTTP status error
(404 or any other status raised by raise_for_status) is caught and only
logged: the task returns normally and neither counter, nor the file list,
nor the stored files change.  A transport-level error, however, is not
caught: it escapes the task as an exception.  Task execution with collected
results still runs every task: results of a prefix never prevent the
remaining tasks from executing, and the collected errors concatenate. -/
theorem claim4_amended (st : DLState) (path fp : String) (ow : Bool)
    (net : String → FetchOutcome)
    (hfetch : ((st.files.map Prod.fst).contains fp && !ow) = false) :
    (∀ s : Nat, net path = FetchOutcome.httpError s →
      (download_file st path fp ow net).2 = none ∧
      (download_file st path fp ow net).1.downloaded_count = st.downloaded_count ∧
      (download_file st path fp ow net).1.skipped_count = st.skipped_count ∧
      (download_file st path fp ow net).1.downloaded_files = st.downloaded_files ∧
      (download_file st path fp ow net).1.files = st.files) ∧
    (net path = FetchOutcome.transportError →
      (download_file st path fp ow net).2 = some DLError.transport) ∧
    (∀ (st2 : DLState) (ts1 ts2 : List FetchSpec),
      executeTasks net st2 (ts1 ++ ts2) =
        ((executeTasks net (executeTasks net st2 ts1).1 ts2).1,
         (executeTasks net st2 ts1).2 ++ (executeTasks net (executeTasks net st2 ts1).1 ts2).2)) := by
  have hneg : ¬ (((ensureDir st (dirname fp)).files.map Prod.fst).contains fp && !ow) = true := by
    rw [ensureDir_files, hfetch]
    simp
  refine ⟨?_, ?_, ?_⟩
  · intro s hs
    unfold download_file downloadCore
    rw [if_neg hneg, hs]
    simp
  · intro hs
    unfold download_file downloadCore
    rw [if_neg hneg, hs]
  · intro st2 ts1 ts2
    exact executeTasks_append net ts1 st2 ts2

/-- Witness for the amended C4: a 404 against an empty state is absorbed. -/
theorem claim4_witness :
    (download_file st0 "http://h/f" "/srv/apt/f" true (fun _ => FetchOutcome.httpError 404)).2 = none :=
  ((claim4_amended st0 "http://h/f" "/srv/apt/f" true (fun _ => FetchOutcome.httpError 404)
    (by decide)).1 404 rfl).1

/-! ## C5: one package fetch per record -/

theorem filter_pkgTasks (a : Args) (pkgs : List Record) :
    (pkgs.map (pkgTask a)).filter (fun t => t.kind == TaskKind.packageFetch) =
      pkgs.map (pkgTask a) := by
  induction pkgs with
  | nil => rfl
  | cons p rest ih => simp [pkgTask, ih]

/-- C5 (counterexample): a package index holding exactly one record, which
has no Filename field, still yields one PackageFileFetch work item — not
zero as claimed — and its source and destination interpolate the Python
None rendering. -/
theorem claim5_counterexample :
    archTasks w2 a0 "bookworm" "main" "amd64" =
      .ok
        [{ kind := .contentsFetch,
           source := "http://ftp.debian.org/debian/dists/bookworm/main/Contents-amd64.gz",
           dest := "/srv/apt/ftp.debian.org/debian/dists/bookworm/main/Contents-amd64.gz",
           overwrite := true },
         { kind := .dirSync,
           source := "http://ftp.debian.org/debian/dists/bookworm/main/binary-amd64/",
           dest := "/srv/apt/ftp.debian.org",
           overwrite := true },
         { kind := .dirSync,
           source := "http://ftp.debian.org/debian/dists/bookworm/main/debian-installer/binary-amd64/",
           dest := "/srv/apt/ftp.debian.org",
           overwrite := true },
         { kind := .packageFetch,
           source := "http://ftp.debian.org/debian/None",
           dest := "/srv/apt/ftp.debian.org/debian/None",
           overwrite := false }] := by
  rfl

/-- C5 (amended): once the package index of a triple is found, decoded and
parsed, the per-architecture planning step emits exactly one
PackageFileFetch work item per record — whether or not the record carries a
Filename field — with overwrite false (skip if exists), source
proto://url/inpath/Filename and a destination mirroring that path under the
local root, a missing Filename being rendered as the text None. -/
theorem claim5_amended (w : World) (a : Args) (d c arch : String) (pkgs : List Record)
    (hfind : find_and_extract_packages w (w.listing (mkSave a d c arch)) = .ok (some pkgs)) :
    (archTasks w a d c arch).map
        (fun ts => ts.filter (fun t => t.kind == TaskKind.packageFetch)) =
      .ok (pkgs.map (pkgTask a)) ∧
    (pkgs.map (pkgTask a)).length = pkgs.length ∧
    ∀ p ∈ pkgs,
      (pkgTask a p).overwrite = false ∧
      (pkgTask a p).source =
        a.proto ++ "://" ++ a.url ++ "/" ++ a.inpath ++ "/" ++ pyStr (dictGet p "Filename") ∧
      (pkgTask a p).dest =
        a.rootpath ++ "/" ++ a.url ++ "/" ++ a.inpath ++ "/" ++ pyStr (dictGet p "Filename") := by
  refine ⟨?_, List.length_map _ _, ?_⟩
  · unfold archTasks
    rw [hfind]
    have hk1 : (TaskKind.contentsFetch == TaskKind.packageFetch) = false := rfl
    have hk2 : (TaskKind.dirSync == TaskKind.packageFetch) = false := rfl
    simp [Except.map, List.filter_append, filter_pkgTasks, dirSyncTask, List.filter, hk1, hk2]
  · intro p _
    exact ⟨rfl, rfl, rfl⟩

/-- Witness for the amended C5 at a concrete index with one
Filename-carrying record. -/
theorem claim5_witness :
    (archTasks w3 a0 "bookworm" "main" "amd64").map
        (fun ts => ts.filter (fun t => t.kind == TaskKind.packageFetch)) =
      .ok ([[("Package", "foo"), ("Filename", "pool/main/f/foo.deb")]].map (pkgTask a0)) :=
  (claim5_amended w3 a0 "bookworm" "main" "amd64"
    [[("Package", "foo"), ("Filename", "pool/main/f/foo.deb")]] rfl).1

/-! ## C6: duplicate keys, continuation lines, orphan continuations -/

/-- C6: within one record, (i) a key-value line whose key is already present
overwrites the value without changing the key order and leaves the new value
readable at that key; (ii) a non-blank line with no separator appends a
single space and the line to the value of the most recently inserted key;
(iii) such a continuation arriving while the current record is empty is
silently discarded; the parser itself is a total function, so no input text
can make it raise. -/
theorem claim6_record_update :
    (∀ (packages : List Record) (cur : Record) (line k v : String),
      strip line ≠ "" → splitOnce (strip line) = some (k, v) → k ∈ recKeys cur →
      processLine (packages, cur) line = (packages, dictInsert cur k v) ∧
      recKeys (dictInsert cur k v) = recKeys cur ∧
      dictGet (dictInsert cur k v) k = some v) ∧
    (∀ (packages : List Record) (d : Record) (lk lv line : String),
      strip line ≠ "" → splitOnce (strip line) = none → lk ∉ recKeys d →
      processLine (packages, d ++ [(lk, lv)]) line =
        (packages, d ++ [(lk, lv ++ " " ++ strip line)])) ∧
    (∀ (packages : List Record) (line : String),
      strip line ≠ "" → splitOnce (strip line) = none →
      processLine (packages, ([] : Record)) line = (packages, [])) := by
  refine ⟨?_, ?_, ?_⟩
  · intro packages cur line k v hnb hsp hmem
    refine ⟨?_, recKeys_dictInsert_of_mem k v cur hmem, dictGet_dictInsert_self k v cur⟩
    simp only [processLine]
    rw [if_neg hnb, hsp]
  · intro packages d lk lv line hnb hsp hmem
    simp only [processLine]
    rw [if_neg hnb, hsp]
    simp only [List.getLast?_concat]
    rw [dictGet_append_last lk lv d hmem]
    simp only [Option.getD_some]
    rw [dictInsert_append_last lk lv (lv ++ " " ++ strip line) d hmem]
  · intro packages line hnb hsp
    simp only [processLine]
    rw [if_neg hnb, hsp]
    rfl

/-- Witness for C6: overwrite in place, continuation append, orphan
discard, each at a concrete record and line. -/
theorem claim6_witness :
    processLine ([], [("K", "a"), ("B", "b")]) "K: c" = ([], [("K", "c"), ("B", "b")]) ∧
    processLine ([], [("K", "a")]) " cont" = ([], [("K", "a cont")]) ∧
    processLine ([], ([] : Record)) "orphan" = ([], []) :=
  ⟨(claim6_record_update.1 [] [("K", "a"), ("B", "b")] "K: c" "K" "c"
      (by decide) (by decide) (by decide)).1,
   claim6_record_update.2.1 [] [] "K" "a" " cont" (by decide) (by decide) (by decide),
   claim6_record_update.2.2 [] "orphan" (by decide) (by decide)⟩

/-! ## C2: one record per blank-line-delimited block -/

theorem processLine_nonblank (pkgs : List Record) (cur : Record) (l : String)
    (h : strip l ≠ "") :
    processLine (pkgs, cur) l = (pkgs, lineRecStep cur l) := by
  simp only [processLine, lineRecStep]
  rw [if_neg h, if_neg h]
  cases hs : splitOnce (strip l) with
  | some kv => rfl
  | none => cases hl : cur.getLast? <;> rfl

theorem foldl_processLine_nonblank :
    ∀ (b : List String), (∀ l ∈ b, strip l ≠ "") →
      ∀ (pkgs : List Record) (cur : Record),
        b.foldl processLine (pkgs, cur) = (pkgs, b.foldl lineRecStep cur) := by
  intro b
  induction b with
  | nil => intro _ pkgs cur; rfl
  | cons l rest ih =>
    intro h pkgs cur
    simp only [List.foldl_cons]
    rw [processLine_nonblank pkgs cur l (h l (List.mem_cons_self l rest))]
    exact ih (fun x hx => h x (List.mem_cons_of_mem l hx)) pkgs (lineRecStep cur l)

theorem lineRecStep_ne_nil (cur : Record) (l : String) (hnb : strip l ≠ "") (hc : cur ≠ []) :
    lineRecStep cur l ≠ [] := by
  simp only [lineRecStep, processLine]
  rw [if_neg hnb]
  cases hs : splitOnce (strip l) with
  | some kv => simpa using dictInsert_ne_nil cur kv.1 kv.2
  | none =>
    cases hl : cur.getLast? with
    | some p => simpa using dictInsert_ne_nil cur p.1 _
    | none => exact absurd (List.getLast?_eq_none_iff.mp hl) hc

theorem lineRecStep_sep_ne_nil (cur : Record) (l k v : String)
    (hs : splitOnce (strip l) = some (k, v)) : lineRecStep cur l ≠ [] := by
  have hnb : strip l ≠ "" := by
    intro he
    rw [he] at hs
    have hnone : splitOnce "" = none := rfl
    rw [hnone] at hs
    cases hs
  simp only [lineRecStep, processLine]
  rw [if_neg hnb, hs]
  simpa using dictInsert_ne_nil cur k v

theorem foldl_lineRecStep_ne_nil :
    ∀ (b : List String), (∀ l ∈ b, strip l ≠ "") →
      ∀ cur : Record, cur ≠ [] → b.foldl lineRecStep cur ≠ [] := by
  intro b
  induction b with
  | nil => intro _ cur hc; exact hc
  | cons l rest ih =>
    intro h cur hc
    simp only [List.foldl_cons]
    exact ih (fun x hx => h x (List.mem_cons_of_mem l hx)) _
      (lineRecStep_ne_nil cur l (h l (List.mem_cons_self l rest)) hc)

theorem block_foldl_ne_nil :
    ∀ (b : List String), (∀ l ∈ b, strip l ≠ "") →
      (∃ l ∈ b, (splitOnce (strip l)).isSome) →
      ∀ cur : Record, b.foldl lineRecStep cur ≠ [] := by
  intro b
  induction b with
  | nil =>
    intro _ hsep cur
    rcases hsep with ⟨l, hl, _⟩
    exact absurd hl (List.not_mem_nil l)
  | cons l rest ih =>
    intro hnb hsep cur
    simp only [List.foldl_cons]
    by_cases hs : (splitOnce (strip l)).isSome
    · obtain ⟨kv, hkv⟩ := Option.isSome_iff_exists.mp hs
      have h1 : lineRecStep cur l ≠ [] :=
        lineRecStep_sep_ne_nil cur l kv.1 kv.2 (by simpa using hkv)
      exact foldl_lineRecStep_ne_nil rest
        (fun x hx => hnb x (List.mem_cons_of_mem l hx)) _ h1
    · rcases hsep with ⟨l2, hl2, hsome⟩
      rcases List.mem_cons.mp hl2 with rfl | hmem
      · exact absurd hsome hs
      · exact ih (fun x hx => hnb x (List.mem_cons_of_mem l hx)) ⟨l2, hmem, hsome⟩ _

theorem processLine_blank_flush (pkgs : List Record) (cur : Record) (h : cur ≠ []) :
    processLine (pkgs, cur) "" = (pkgs ++ [cur], []) := by
  have hs : strip "" = "" := rfl
  simp [processLine, hs, h]

theorem blockRecord_foldl (b : List String) (h : ∀ l ∈ b, strip l ≠ "") :
    blockRecord b = b.foldl lineRecStep [] := by
  unfold blockRecord
  rw [foldl_processLine_nonblank b h [] []]

theorem parse_lines_from_joinBlocks :
    ∀ (blocks : List (List String)),
      (∀ b ∈ blocks, ∀ l ∈ b, strip l ≠ "") →
      (∀ b ∈ blocks, ∃ l ∈ b, (splitOnce (strip l)).isSome) →
      ∀ acc, parse_lines_from acc (joinBlocks blocks) = acc ++ blocks.map blockRecord := by
  intro blocks
  induction blocks with
  | nil => intro _ _ acc; simp [joinBlocks, parse_lines_from]
  | cons b rest ih =>
    intro hnb hsep acc
    have hb : ∀ l ∈ b, strip l ≠ "" := hnb b (List.mem_cons_self b rest)
    have hbne : b.foldl lineRecStep [] ≠ [] :=
      block_foldl_ne_nil b hb (hsep b (List.mem_cons_self b rest)) []
    cases rest with
    | nil =>
      have hj : joinBlocks [b] = b := rfl
      unfold parse_lines_from
      rw [hj, foldl_processLine_nonblank b hb acc []]
      simp [hbne, blockRecord_foldl b hb]
    | cons b2 rest2 =>
      have hj : joinBlocks (b :: b2 :: rest2) = b ++ [""] ++ joinBlocks (b2 :: rest2) := rfl
      have key : parse_lines_from acc (joinBlocks (b :: b2 :: rest2)) =
          parse_lines_from (acc ++ [blockRecord b]) (joinBlocks (b2 :: rest2)) := by
        unfold parse_lines_from
        rw [hj, List.foldl_append, List.foldl_append,
          foldl_processLine_nonblank b hb acc []]
        simp only [List.foldl_cons, List.foldl_nil]
        rw [processLine_blank_flush acc _ hbne, blockRecord_foldl b hb]
      rw [key,
        ih (fun x hx => hnb x (List.mem_cons_of_mem b hx))
          (fun x hx => hsep x (List.mem_cons_of_mem b hx)) (acc ++ [blockRecord b])]
      simp

/-- C2: parsing the five-line example text yields exactly the two records of
the claim, with the continuation joined by a single space and the final
record flushed although the text does not end in a blank line; in general,
for any list of blocks of non-blank lines, each containing at least one
key-value line, the parser run on the blank-line-joined concatenation
returns exactly one record per block, the last block included. -/
theorem claim2_parse :
    parse_packages_data "Package: foo\nVersion: 1.0\n continuation\n\nPackage: bar\n" =
      [[("Package", "foo"), ("Version", "1.0 continuation")], [("Package", "bar")]] ∧
    ∀ blocks : List (List String),
      (∀ b ∈ blocks, ∀ l ∈ b, strip l ≠ "") →
      (∀ b ∈ blocks, ∃ l ∈ b, (splitOnce (strip l)).isSome) →
      parse_lines (joinBlocks blocks) = blocks.map blockRecord := by
  constructor
  · decide
  · intro blocks hnb hsep
    have h := parse_lines_from_joinBlocks blocks hnb hsep []
    simpa [parse_lines] using h

/-- Witness for C2: the block property applied to two concrete blocks. -/
theorem claim2_witness :
    parse_lines (joinBlocks [["Package: foo"], ["Package: bar"]]) =
      [["Package: foo"], ["Package: bar"]].map blockRecord :=
  claim2_parse.2 [["Package: foo"], ["Package: bar"]] (by decide) (by decide)

/-! ## C8: the prune derivation equals the mirror package destinations -/

theorem packageFetchDests_append (ts1 ts2 : List SyncTask) :
    packageFetchDests (ts1 ++ ts2) = packageFetchDests ts1 ++ packageFetchDests ts2 := by
  simp [packageFetchDests, List.filter_append]

theorem packageFetchDests_dirSync2 (a : Args) (p q : String) :
    packageFetchDests [dirSyncTask a p, dirSyncTask a q] = [] := rfl

theorem packageFetchDests_releaseTasks (a : Args) (d : String) :
    packageFetchDests (releaseTasks a d) = [] := rfl

theorem pruneTriple_eq (w : World) (a : Args) (d c arch : String) :
    pruneTriple w a d c arch = (archTasks w a d c arch).map packageFetchDests := by
  simp only [pruneTriple, archTasks]
  cases hf : find_and_extract_packages w (w.listing (mkSave a d c arch)) with
  | error e => rfl
  | ok o =>
    cases o with
    | none => rfl
    | some pkgs =>
      simp only [Except.map]
      congr 1
      have hk1 : (TaskKind.contentsFetch == TaskKind.packageFetch) = false := rfl
      have hk2 : (TaskKind.dirSync == TaskKind.packageFetch) = false := rfl
      simp [packageFetchDests, List.filter, hk1, hk2, dirSyncTask, filter_pkgTasks,
        List.map_map, pkgTask]

theorem pruneArchLoop_eq (w : World) (a : Args) (d c : String) :
    ∀ archs : List String,
      pruneArchLoop w a d c archs = (archLoop w a d c archs).map packageFetchDests := by
  intro archs
  induction archs with
  | nil => rfl
  | cons arch rest ih =>
    simp only [pruneArchLoop, archLoop]
    rw [pruneTriple_eq]
    cases ht : archTasks w a d c arch with
    | error e => rfl
    | ok ts =>
      simp only [Except.map]
      rw [ih]
      cases hl : archLoop w a d c rest with
      | error e => rfl
      | ok ts2 => simp [Except.map, packageFetchDests_append]

theorem compTasks_dests (w : World) (a : Args) (d c : String) :
    (compTasks w a d c).map packageFetchDests = pruneArchLoop w a d c a.architectures := by
  simp only [compTasks]
  rw [pruneArchLoop_eq]
  cases hl : archLoop w a d c a.architectures with
  | error e => rfl
  | ok ts =>
    simp only [Except.map]
    rfl

theorem pruneCompLoop_eq (w : World) (a : Args) (d : String) :
    ∀ comps : List String,
      pruneCompLoop w a d comps = (compLoop w a d comps).map packageFetchDests := by
  intro comps
  induction comps with
  | nil => rfl
  | cons c rest ih =>
    simp only [pruneCompLoop, compLoop]
    rw [← compTasks_dests]
    cases ht : compTasks w a d c with
    | error e => rfl
    | ok ts =>
      simp only [Except.map]
      rw [ih]
      cases hl : compLoop w a d rest with
      | error e => rfl
      | ok ts2 => simp [Except.map, packageFetchDests_append]

theorem pruneDistLoop_eq (w : World) (a : Args) :
    ∀ dists : List String,
      pruneDistLoop w a dists = (distLoop w a dists).map packageFetchDests := by
  intro dists
  induction dists with
  | nil => rfl
  | cons d rest ih =>
    simp only [pruneDistLoop, distLoop]
    rw [pruneCompLoop_eq]
    cases ht : compLoop w a d a.components with
    | error e => rfl
    | ok ts =>
      simp only [Except.map]
      rw [ih]
      cases hl : distLoop w a rest with
      | error e => rfl
      | ok ts2 =>
        simp [Except.map, packageFetchDests_append, packageFetchDests_releaseTasks]

/-- C8: for every run configuration and local filesystem state, the path
list remove_repository derives equals (task for task, in order, errors
included) the destinations of the PackageFileFetch work items the mirror
planning traversal produces; the derivation is a pure function of the local
listing and decode oracles, with no network or directory-sync operation
involved anywhere in its embedding. -/
theorem claim8_prune_refines_mirror (w : World) (a : Args) :
    prunePlan w a = (mirrorPlan w a).map packageFetchDests := by
  unfold prunePlan mirrorPlan
  exact pruneDistLoop_eq w a a.distributions

end Mirep
